import Mathlib

/-!
# Verification of the exec/session core of go-dockerclient (`misc.go`)

This file is a shallow embedding, in Lean 4, of the single source file
`misc.go` of the repository, together with proofs about it.

Two parts of the source are modelled:

* `ParseRepositoryTag` (lines 149-157): a pure string function, embedded
  directly over `List Char` (Go strings are byte strings; every input in the
  claims is ASCII, so a character list is a faithful model and
  `strings.LastIndex`/slicing become list index/`take`/`drop`).

* `Exec` (lines 67-140): the session coordinator.  It is embedded twice, at
  two levels of abstraction that cover the same source lines:

  1. `Docker.Exec`: an instrumented sequential model of the whole function.
     External collaborators (`c.do`, JSON unmarshalling, the relay
     `c.hijack2` launched through `promise.Go`, `c.monitorTtySize`) are
     oracles supplied in an `ExecEnv`; every outgoing call is recorded as an
     `Event` so that "the dispatcher is never invoked" and "the start call
     is made exactly once with this path" are provable statements.  The
     resolution of the `select` between the `hijacked` channel and `errCh`
     is justified by the step model below and surfaced as the single
     scheduler bit `ExecEnv.errFirst` (meaningful only when the relay
     fails; on success the unbuffered send on `hijacked` forces the
     connection-ready branch).

  2. `Docker.step` / `Docker.Reach`: a small-step interleaving model of the
     channel protocol of lines 86-139: the unbuffered `hijacked` channel,
     the one-shot buffered `errCh` produced by `promise.Go`, the `select`,
     the deferred `closer.Close()`, and the deferred drain of `hijacked`.
     The relay side (`c.hijack2`) is not part of `src/`; it is modelled
     from the spec (section 4.2 StreamRelay): on upgrade failure it reports
     the error on the completion channel; on success it sends the acquired
     connection on the ready channel, relays, and then reports the final
     error; in all cases the ready channel is closed when the relay
     returns, before `promise.Go` writes the completion value.  All
     interleavings of the two processes are covered by an inductive
     invariant on reachable configurations.

Go error values are modelled by `Docker.GoError`; `nil` errors by
`Option Docker.GoError` with `none` for `nil`.  The dynamic type test
`opts.InputStream.(*os.File)` is modelled by the constructor test
`Docker.isOsFile` on a two-constructor stream type.
-/

namespace Docker

/-! ## Part 1: `ParseRepositoryTag` (misc.go lines 149-157) -/

/-- Index of the last occurrence of `c` in `l`, as `strings.LastIndex`
(which returns `-1`, modelled by `none`, when absent). -/
def lastIndexOf (c : Char) : List Char → Option Nat
  | [] => none
  | x :: xs =>
    match lastIndexOf c xs with
    | some n => some (n + 1)
    | none => if x = c then some 0 else none

/-- `ParseRepositoryTag` over character lists.  Mirrors misc.go lines
149-157: split at the last colon; the suffix is the tag unless it contains
a slash; with no colon, or a slash in the suffix, the whole input is the
repository and the tag is empty. -/
def parseRepoTagList (repoTag : List Char) : List Char × List Char :=
  match lastIndexOf ':' repoTag with
  | none => (repoTag, [])
  | some n =>
    let tag := repoTag.drop (n + 1)
    if '/' ∈ tag then (repoTag, []) else (repoTag.take n, tag)

/-- `ParseRepositoryTag` on Lean strings (the source's signature
`func ParseRepositoryTag(repoTag string) (repository string, tag string)`). -/
def ParseRepositoryTag (repoTag : String) : String × String :=
  let p := parseRepoTagList repoTag.data
  (⟨p.1⟩, ⟨p.2⟩)

/-! ## Part 2: data model shared by both `Exec` embeddings -/

/-- Go error values that appear in `Exec` (misc.go lines 67-140).
`NoSuchContainer{ID: opts.Container}` (line 69) and the
`fmt.Errorf("Couldn't get an operation id for the exec command")` value
(line 84) are the two errors built by `Exec` itself; every error coming
back from a collaborator (`c.do`, `json.Unmarshal`, `c.hijack2`,
`c.monitorTtySize`) is an opaque value, modelled by `transport`. -/
inductive GoError where
  | noSuchContainer (id : String)
  | missingOpId
  | transport (tag : Nat)
deriving DecidableEq

/-- A Go stream value (`io.Reader`/`io.Writer`), as far as `Exec` can
observe it: lines 122-128 only test the dynamic type assertion
`.(*os.File)` and, when it succeeds, read the file descriptor. -/
inductive GoStream where
  | osFile (fd : Nat)
  | other (tag : Nat)
deriving DecidableEq

/-- The dynamic type test `s.(*os.File)` of misc.go lines 122 and 125. -/
def isOsFile : GoStream → Bool
  | .osFile _ => true
  | .other _ => false

/-- `file.Fd()` of line 127; `0` (the Go zero value the variable keeps)
when the stream is not an `*os.File` and line 127 never runs. -/
def outFdOf : GoStream → Nat
  | .osFile fd => fd
  | .other _ => 0

/-- `ExecOptions` of misc.go lines 53-65. -/
structure ExecOptions where
  User : String
  Privileged : Bool
  AttachStdin : Bool
  AttachStdout : Bool
  AttachStderr : Bool
  Tty : Bool
  Command : List String
  Container : String
  OutputStream : GoStream
  ErrorStream : GoStream
  InputStream : GoStream

/-- The observable content of the creation response's body (misc.go lines
78-82): `json.Unmarshal(body, &id)` either fails, or fills
`struct{ Id string }` with the `Id` field of the body -- the empty string
both when the field is present but empty and when it is absent. -/
structure CreateBody where
  unmarshalId : Except GoError String

/-- Outcome of the relay (`c.hijack2` run through `promise.Go`, misc.go
line 98).  Modelled from the spec (section 4.2 StreamRelay): `fail e` is an
upgrade failure before any connection is handed over; `ok fin` is an
upgrade success followed by the relay ending with final error `fin`
(`none` = nil). -/
inductive RelayOutcome where
  | fail (e : GoError)
  | ok (fin : Option GoError)

/-- The single value the relay writes to its completion channel. -/
def relayFinal : RelayOutcome → Option GoError
  | .fail e => some e
  | .ok fin => fin

/-! ## Part 3: instrumented sequential model of `Exec` (misc.go 67-140) -/

/-- Oracles for the collaborators `Exec` calls, plus the one scheduler
choice the channel protocol leaves open (see Part 4): when the relay fails,
both the closed `hijacked` channel and the filled `errCh` become ready and
the `select` of line 106 may take either branch; `errFirst = true` picks
the `errCh` branch (early return at line 113), `errFirst = false` the
closed-`hijacked` branch (fall through to lines 117-139). -/
structure ExecEnv where
  create : Except GoError CreateBody
  relay : RelayOutcome
  monitorErr : Option GoError
  errFirst : Bool

/-- Outgoing calls `Exec` makes, in order. -/
inductive Event where
  | doCall (method path : String)
  | hijackCall (method path : String) (tty : Bool) (inS outS errS : GoStream)
  | monitorCall (id : String) (isTerminalOut : Bool) (outFd : Nat)
deriving DecidableEq

def isHijackEvent : Event → Bool
  | .hijackCall _ _ _ _ _ _ => true
  | _ => false

def isMonitorEvent : Event → Bool
  | .monitorCall _ _ _ => true
  | _ => false

/-- The `monitorTtySize` call of lines 130-134: made only when
`opts.Tty && isTerminalIn`, where `isTerminalIn` is the type test of line
122; its arguments record `isTerminalOut` and `outFd` from lines 125-128. -/
def monitorEvents (opts : ExecOptions) (id : String) : List Event :=
  if opts.Tty && isOsFile opts.InputStream then
    [.monitorCall id (isOsFile opts.OutputStream) (outFdOf opts.OutputStream)]
  else []

/-- The warning printed at line 132 when `monitorTtySize` fails; it goes to
stdout, never into the return value. -/
def monitorWarnings (env : ExecEnv) (opts : ExecOptions) : List GoError :=
  if opts.Tty && isOsFile opts.InputStream then
    match env.monitorErr with
    | some e => [e]
    | none => []
  else []

/-- Sequential model of `func (c *Client) Exec(opts ExecOptions) error`
(misc.go lines 67-140).  Returns the session result (`none` = nil), the
list of outgoing calls, and the printed warnings.  The channel choreography
of lines 86-139 is resolved according to the step model of Part 4: on relay
success the coordinator takes ownership at the `select`, runs the terminal
checks, and the final `<-errCh` (line 136) yields the relay's value; on
relay failure the `select` either returns the error at line 113
(`errFirst`) or sees the closed channel, gets a nil closer, runs the
terminal checks and returns the error from line 136. -/
def Exec (env : ExecEnv) (opts : ExecOptions) :
    Option GoError × List Event × List GoError :=
  if opts.Container = "" then
    (some (.noSuchContainer opts.Container), [], [])
  else
    let name := opts.Container
    let path := "/containers/" ++ name ++ "/exec"
    match env.create with
    | .error e => (some e, [.doCall "POST" path], [])
    | .ok body =>
      match body.unmarshalId with
      | .error e => (some e, [.doCall "POST" path], [])
      | .ok id =>
        if id = "" then (some .missingOpId, [.doCall "POST" path], [])
        else
          let doPath := "/exec/" ++ id ++ "/start"
          let stderr := if opts.Tty then opts.OutputStream else opts.ErrorStream
          let hev := Event.hijackCall "POST" doPath opts.Tty
            opts.InputStream opts.OutputStream stderr
          match env.relay with
          | .fail e =>
            if env.errFirst then
              (some e, [.doCall "POST" path, hev], [])
            else
              (some e, [.doCall "POST" path, hev] ++ monitorEvents opts id,
                monitorWarnings env opts)
          | .ok fin =>
            (fin, [.doCall "POST" path, hev] ++ monitorEvents opts id,
              monitorWarnings env opts)

/-! ## Part 4: small-step interleaving model of misc.go lines 86-139

Two processes run concurrently once line 98 has launched the relay:

* the coordinator (the rest of `Exec`): the `select` of lines 106-115, the
  terminal checks and monitor call (122-134, no channel operations), the
  final `<-errCh` of line 136, and, on return, the LIFO deferred actions:
  `closer.Close()` (line 109, only if a non-nil closer was received) and
  the drain of `hijacked` (lines 91-95);

* the relay (`c.hijack2` wrapped by `promise.Go`), modelled from the spec
  (section 4.2): on upgrade failure it returns the error without sending on
  the ready channel; on upgrade success it performs the blocking unbuffered
  send of the acquired connection on `hijacked`, relays, and returns the
  final error.  When the relay function returns, its deferred
  `close(hijacked)` runs, and only then does `promise.Go` write the
  returned error into the one-slot buffered `errCh`.

The state of the `hijacked` channel is `idle` (open, nobody sending),
`sending` (the relay is blocked in the unbuffered send) or `closedCh`.
`errBuf` is the one-slot buffer of `errCh`.  `errReads` counts the
coordinator's receives from `errCh`, `closes` the calls to
`closer.Close()`, and `acquired` records whether the `select` received a
non-nil closer (ownership transfer). -/

inductive HijackSt where
  | idle
  | sending
  | closedCh
deriving DecidableEq

inductive RelayPC where
  | start
  | sendBlocked
  | copying
  | writeErr
  | done
deriving DecidableEq

inductive CoordPC where
  | select
  | drain (owned : Bool)
  | finish (owned : Bool) (v : Option GoError)
  | done (v : Option GoError)
deriving DecidableEq

structure Config where
  coord : CoordPC
  relay : RelayPC
  hij : HijackSt
  errBuf : Option (Option GoError)
  closes : Nat
  errReads : Nat
  acquired : Bool
deriving DecidableEq

/-- The configuration right after line 98: the relay has been launched,
the coordinator is entering the `select` of line 106. -/
def initConfig : Config :=
  { coord := .select, relay := .start, hij := .idle, errBuf := none,
    closes := 0, errReads := 0, acquired := false }

/-- Scheduler choices: which enabled transition fires next. -/
inductive Choice where
  | relayStart
  | relayCopy
  | relayWrite
  | selReady
  | selErr
  | drainErr
  | finishStep
deriving DecidableEq

/-- One interleaving step.  `none` when the chosen transition is not
enabled in `c` (the process is blocked or past that point). -/
def step (o : RelayOutcome) (c : Config) : Choice → Option Config
  | .relayStart =>
    match c.relay, o, c.hij with
    | .start, .fail _, _ =>
      some { c with relay := .writeErr, hij := .closedCh }
    | .start, .ok _, .idle =>
      some { c with relay := .sendBlocked, hij := .sending }
    | _, _, _ => none
  | .relayCopy =>
    match c.relay with
    | .copying => some { c with relay := .writeErr, hij := .closedCh }
    | _ => none
  | .relayWrite =>
    match c.relay, c.errBuf with
    | .writeErr, none =>
      some { c with relay := .done, errBuf := some (relayFinal o) }
    | _, _ => none
  | .selReady =>
    match c.coord, c.hij, c.relay with
    | .select, .sending, .sendBlocked =>
      some { c with coord := .drain true, hij := .idle,
                    relay := .copying, acquired := true }
    | .select, .closedCh, _ =>
      some { c with coord := .drain false }
    | _, _, _ => none
  | .selErr =>
    match c.coord, c.errBuf with
    | .select, some (some e) =>
      some { c with coord := .finish false (some e), errBuf := none,
                    errReads := c.errReads + 1 }
    | .select, some none =>
      some { c with coord := .drain false, errBuf := none,
                    errReads := c.errReads + 1 }
    | _, _ => none
  | .drainErr =>
    match c.coord, c.errBuf with
    | .drain ow, some v =>
      some { c with coord := .finish ow v, errBuf := none,
                    errReads := c.errReads + 1 }
    | _, _ => none
  | .finishStep =>
    match c.coord, c.hij with
    | .finish ow v, .closedCh =>
      some { c with coord := .done v,
                    closes := c.closes + (if ow then 1 else 0) }
    | .finish ow v, .sending =>
      some { c with coord := .done v,
                    closes := c.closes + (if ow then 1 else 0),
                    hij := .idle, relay := .copying }
    | _, _ => none

/-- Reachability from the post-launch configuration under outcome `o`. -/
inductive Reach (o : RelayOutcome) : Config → Prop where
  | init : Reach o initConfig
  | step {c c' : Config} (ch : Choice) :
      Reach o c → step o c ch = some c' → Reach o c'

/-! ### The reachable configurations

With the relay failing (`o = fail e`), the system passes through the
states `F1`-`F7` below; with the relay succeeding (`o = ok fin`), through
`F1, O2-O7`.  The disjunction `inv` is closed under `step` and therefore
contains every reachable configuration, for every interleaving. -/

def F2 : Config := { initConfig with relay := .writeErr, hij := .closedCh }

def F3 (e : GoError) : Config := { F2 with relay := .done, errBuf := some (some e) }

def F4 : Config := { F2 with coord := .drain false }

def F5 (e : GoError) : Config := { F3 e with coord := .drain false }

def F6 (e : GoError) : Config :=
  { coord := .finish false (some e), relay := .done, hij := .closedCh,
    errBuf := none, closes := 0, errReads := 1, acquired := false }

def F7 (e : GoError) : Config := { F6 e with coord := .done (some e) }

def O2 : Config := { initConfig with relay := .sendBlocked, hij := .sending }

def O3 : Config :=
  { coord := .drain true, relay := .copying, hij := .idle,
    errBuf := none, closes := 0, errReads := 0, acquired := true }

def O4 : Config := { O3 with relay := .writeErr, hij := .closedCh }

def O5 (fin : Option GoError) : Config :=
  { O4 with relay := .done, errBuf := some fin }

def O6 (fin : Option GoError) : Config :=
  { coord := .finish true fin, relay := .done, hij := .closedCh,
    errBuf := none, closes := 0, errReads := 1, acquired := true }

def O7 (fin : Option GoError) : Config :=
  { O6 fin with coord := .done fin, closes := 1 }

def inv : RelayOutcome → Config → Prop
  | .fail e, c =>
      c = initConfig ∨ c = F2 ∨ c = F3 e ∨ c = F4 ∨ c = F5 e ∨
      c = F6 e ∨ c = F7 e
  | .ok fin, c =>
      c = initConfig ∨ c = O2 ∨ c = O3 ∨ c = O4 ∨ c = O5 fin ∨
      c = O6 fin ∨ c = O7 fin

def coordMeasure : CoordPC → Nat
  | .select => 3
  | .drain _ => 2
  | .finish _ _ => 1
  | .done _ => 0

def relayMeasure : RelayPC → Nat
  | .start => 4
  | .sendBlocked => 3
  | .copying => 2
  | .writeErr => 1
  | .done => 0

/-- Progress measure: strictly decreases on every step, so every
interleaving terminates. -/
def configMeasure (c : Config) : Nat :=
  coordMeasure c.coord + relayMeasure c.relay

/-- The events after the creation and start calls: the monitor call runs
unless the relay failed and the `select` returned early (line 113). -/
def tailEvents (env : ExecEnv) (opts : ExecOptions) (id : String) : List Event :=
  match env.relay with
  | .fail _ => if env.errFirst then [] else monitorEvents opts id
  | .ok _ => monitorEvents opts id

/-- Sample options used to instantiate the universally quantified
theorems below on concrete inputs. -/
def sampleOpts : ExecOptions :=
  { User := "root", Privileged := false, AttachStdin := true,
    AttachStdout := true, AttachStderr := true, Tty := false,
    Command := ["ls"], Container := "c1", OutputStream := .other 0,
    ErrorStream := .other 1, InputStream := .other 2 }

/-- Sample environment: creation succeeds with id "abc", the relay
succeeds, no monitor failure. -/
def sampleEnv : ExecEnv :=
  { create := .ok ⟨.ok "abc"⟩, relay := .ok none, monitorErr := none,
    errFirst := false }

/-- Sample options asking for a pseudo-terminal with an `*os.File` input
stream that need not be a terminal device. -/
def sampleTtyOpts : ExecOptions :=
  { sampleOpts with Tty := true, InputStream := .osFile 0,
                    OutputStream := .osFile 1 }

/-- Environment in which the relay fails and the scheduler resolves the
`select` of line 106 towards the error channel. -/
def failEnv : ExecEnv :=
  { create := .ok ⟨.ok "abc"⟩, relay := .fail (.transport 7),
    monitorErr := none, errFirst := true }

/-! ## Part 5: theorems -/

/-! ### Lemmas about `lastIndexOf` and `parseRepoTagList` -/

theorem lastIndexOf_eq_none_of_not_mem {c : Char} :
    ∀ {l : List Char}, c ∉ l → lastIndexOf c l = none := by
  intro l
  induction l with
  | nil => intro _; rfl
  | cons x xs ih =>
    intro h
    have hx : x ≠ c := fun hxc => h (hxc ▸ List.mem_cons_self x xs)
    have hxs : c ∉ xs := fun hm => h (List.mem_cons_of_mem x hm)
    simp [lastIndexOf, ih hxs, hx]

theorem not_mem_of_lastIndexOf_eq_none {c : Char} :
    ∀ {l : List Char}, lastIndexOf c l = none → c ∉ l := by
  intro l
  induction l with
  | nil => intro _; simp
  | cons x xs ih =>
    intro h
    simp only [lastIndexOf] at h
    cases hxs : lastIndexOf c xs with
    | some m => rw [hxs] at h; exact Option.noConfusion h
    | none =>
      rw [hxs] at h
      by_cases hx : x = c
      · simp [hx] at h
      · simp [hx]
        exact ⟨fun hc => hx hc.symm, ih hxs⟩

theorem lastIndexOf_append_last {c : Char} (a : List Char) {b : List Char}
    (hb : c ∉ b) : lastIndexOf c (a ++ c :: b) = some a.length := by
  induction a with
  | nil => simp [lastIndexOf, lastIndexOf_eq_none_of_not_mem hb]
  | cons x xs ih => simp [lastIndexOf, ih]

theorem lastIndexOf_take_drop {c : Char} :
    ∀ {l : List Char} {n : Nat}, lastIndexOf c l = some n →
      l.take n ++ c :: l.drop (n + 1) = l := by
  intro l
  induction l with
  | nil => intro n h; simp [lastIndexOf] at h
  | cons x xs ih =>
    intro n h
    simp only [lastIndexOf] at h
    cases hxs : lastIndexOf c xs with
    | some m =>
      rw [hxs] at h
      cases h
      simpa using ih hxs
    | none =>
      rw [hxs] at h
      by_cases hx : x = c
      · simp [hx] at h
        cases h
        simp [hx]
      · simp [hx] at h

theorem lastIndexOf_drop_not_mem {c : Char} :
    ∀ {l : List Char} {n : Nat}, lastIndexOf c l = some n →
      c ∉ l.drop (n + 1) := by
  intro l
  induction l with
  | nil => intro n h; simp [lastIndexOf] at h
  | cons x xs ih =>
    intro n h
    simp only [lastIndexOf] at h
    cases hxs : lastIndexOf c xs with
    | some m =>
      rw [hxs] at h
      cases h
      simpa using ih hxs
    | none =>
      rw [hxs] at h
      by_cases hx : x = c
      · simp [hx] at h
        cases h
        simpa using not_mem_of_lastIndexOf_eq_none hxs
      · simp [hx] at h

theorem parseRepoTagList_split {a b : List Char} (hb : ':' ∉ b)
    (hs : '/' ∉ b) : parseRepoTagList (a ++ ':' :: b) = (a, b) := by
  have hlast := lastIndexOf_append_last a hb
  simp only [parseRepoTagList, hlast]
  have hdrop : (a ++ ':' :: b).drop (a.length + 1) = b := by
    rw [List.drop_append_eq_append_drop]
    simp
  have htake : (a ++ ':' :: b).take a.length = a := by
    rw [List.take_append_eq_append_take]
    simp
  simp [hdrop, htake, hs]

theorem parseRepoTagList_slash {a b : List Char} (hb : ':' ∉ b)
    (hs : '/' ∈ b) : parseRepoTagList (a ++ ':' :: b) = (a ++ ':' :: b, []) := by
  have hlast := lastIndexOf_append_last a hb
  simp only [parseRepoTagList, hlast]
  have hdrop : (a ++ ':' :: b).drop (a.length + 1) = b := by
    rw [List.drop_append_eq_append_drop]
    simp
  simp [hdrop, hs]

theorem parseRepoTagList_no_colon {l : List Char} (h : ':' ∉ l) :
    parseRepoTagList l = (l, []) := by
  simp [parseRepoTagList, lastIndexOf_eq_none_of_not_mem h]

/-! ### Lemmas about the interleaving model -/

theorem inv_step {o : RelayOutcome} {c c' : Config} {ch : Choice}
    (h : inv o c) (hs : step o c ch = some c') : inv o c' := by
  cases o with
  | fail e =>
    simp only [inv] at h ⊢
    rcases h with rfl | rfl | rfl | rfl | rfl | rfl | rfl <;> cases ch <;>
      simp [step, initConfig, F2, F3, F4, F5, F6, F7, relayFinal] at hs <;>
      subst hs <;>
      simp [initConfig, F2, F3, F4, F5, F6, F7]
  | ok fin =>
    simp only [inv] at h ⊢
    rcases h with rfl | rfl | rfl | rfl | rfl | rfl | rfl <;> cases ch <;>
      simp [step, initConfig, O2, O3, O4, O5, O6, O7, relayFinal] at hs <;>
      subst hs <;>
      simp [initConfig, O2, O3, O4, O5, O6, O7]

theorem reach_inv {o : RelayOutcome} {c : Config} (h : Reach o c) :
    inv o c := by
  induction h with
  | init => cases o <;> exact Or.inl rfl
  | step _ _ hs ih => exact inv_step ih hs

theorem step_decreases {o : RelayOutcome} {c c' : Config} {ch : Choice}
    (h : inv o c) (hs : step o c ch = some c') :
    configMeasure c' < configMeasure c := by
  cases o with
  | fail e =>
    simp only [inv] at h
    rcases h with rfl | rfl | rfl | rfl | rfl | rfl | rfl <;> cases ch <;>
      simp [step, initConfig, F2, F3, F4, F5, F6, F7, relayFinal] at hs <;>
      subst hs <;>
      simp [initConfig, F2, F3, F4, F5, F6, F7, configMeasure,
        coordMeasure, relayMeasure]
  | ok fin =>
    simp only [inv] at h
    rcases h with rfl | rfl | rfl | rfl | rfl | rfl | rfl <;> cases ch <;>
      simp [step, initConfig, O2, O3, O4, O5, O6, O7, relayFinal] at hs <;>
      subst hs <;>
      simp [initConfig, O2, O3, O4, O5, O6, O7, configMeasure,
        coordMeasure, relayMeasure]

theorem inv_progress {o : RelayOutcome} {c : Config} (h : inv o c)
    (hne : ∀ v, c.coord ≠ CoordPC.done v) :
    ∃ ch c', step o c ch = some c' := by
  cases o with
  | fail e =>
    rcases h with rfl | rfl | rfl | rfl | rfl | rfl | rfl
    · exact ⟨.relayStart, _, rfl⟩
    · exact ⟨.relayWrite, _, rfl⟩
    · exact ⟨.selErr, _, rfl⟩
    · exact ⟨.relayWrite, _, rfl⟩
    · exact ⟨.drainErr, _, rfl⟩
    · exact ⟨.finishStep, _, rfl⟩
    · exact absurd rfl (hne (some e))
  | ok fin =>
    rcases h with rfl | rfl | rfl | rfl | rfl | rfl | rfl
    · exact ⟨.relayStart, _, rfl⟩
    · exact ⟨.selReady, _, rfl⟩
    · exact ⟨.relayCopy, _, rfl⟩
    · exact ⟨.relayWrite, _, rfl⟩
    · exact ⟨.drainErr, _, rfl⟩
    · exact ⟨.finishStep, _, rfl⟩
    · exact absurd rfl (hne fin)

/-! ### Lemmas about the sequential model -/

theorem Exec_events_eq (env : ExecEnv) (opts : ExecOptions)
    (hc : opts.Container ≠ "") {body : CreateBody} {id : String}
    (hcr : env.create = .ok body) (hid : body.unmarshalId = .ok id)
    (hne : id ≠ "") :
    (Exec env opts).2.1 =
      Event.doCall "POST" ("/containers/" ++ opts.Container ++ "/exec") ::
      Event.hijackCall "POST" ("/exec/" ++ id ++ "/start") opts.Tty
        opts.InputStream opts.OutputStream
        (if opts.Tty then opts.OutputStream else opts.ErrorStream) ::
      tailEvents env opts id := by
  cases hrel : env.relay with
  | fail e =>
    by_cases hef : env.errFirst <;>
      simp [Exec, hc, hcr, hid, hne, hrel, tailEvents, hef]
  | ok fin =>
    simp [Exec, hc, hcr, hid, hne, hrel, tailEvents]

theorem Exec_result_eq (env : ExecEnv) (opts : ExecOptions)
    (hc : opts.Container ≠ "") {body : CreateBody} {id : String}
    (hcr : env.create = .ok body) (hid : body.unmarshalId = .ok id)
    (hne : id ≠ "") :
    (Exec env opts).1 = relayFinal env.relay := by
  cases hrel : env.relay with
  | fail e =>
    by_cases hef : env.errFirst <;>
      simp [Exec, hc, hcr, hid, hne, hrel, relayFinal, hef]
  | ok fin =>
    simp [Exec, hc, hcr, hid, hne, hrel, relayFinal]

theorem monitorEvents_filter_hijack (opts : ExecOptions) (id : String) :
    (monitorEvents opts id).filter isHijackEvent = [] := by
  unfold monitorEvents
  split <;> simp [isHijackEvent]

theorem tailEvents_filter_hijack (env : ExecEnv) (opts : ExecOptions)
    (id : String) :
    (tailEvents env opts id).filter isHijackEvent = [] := by
  cases hrel : env.relay with
  | fail e =>
    by_cases hef : env.errFirst
    · simp only [tailEvents, hrel, if_pos hef]
      rfl
    · simp only [tailEvents, hrel, if_neg hef]
      exact monitorEvents_filter_hijack opts id
  | ok fin =>
    simp only [tailEvents, hrel]
    exact monitorEvents_filter_hijack opts id

theorem monitor_event_guard (env : ExecEnv) (opts : ExecOptions)
    {id : String} {b : Bool} {fd : Nat}
    (h : Event.monitorCall id b fd ∈ (Exec env opts).2.1) :
    opts.Tty = true ∧ isOsFile opts.InputStream = true ∧
    b = isOsFile opts.OutputStream ∧ fd = outFdOf opts.OutputStream := by
  by_cases hc : opts.Container = ""
  · simp [Exec, hc] at h
  · cases hcr : env.create with
    | error e0 => simp [Exec, hc, hcr] at h
    | ok body =>
      cases hid : body.unmarshalId with
      | error e0 => simp [Exec, hc, hcr, hid] at h
      | ok id2 =>
        by_cases hne : id2 = ""
        · simp [Exec, hc, hcr, hid, hne] at h
        · cases hg : opts.Tty && isOsFile opts.InputStream with
          | false =>
            cases hrel : env.relay with
            | fail e0 =>
              by_cases hef : env.errFirst <;>
                simp [Exec, hc, hcr, hid, hne, hrel, hef, monitorEvents,
                  hg] at h
            | ok fin =>
              simp [Exec, hc, hcr, hid, hne, hrel, monitorEvents, hg] at h
          | true =>
            obtain ⟨hA, hB⟩ : opts.Tty = true ∧ isOsFile opts.InputStream = true := by
              simpa using hg
            cases hrel : env.relay with
            | fail e0 =>
              by_cases hef : env.errFirst
              · simp [Exec, hc, hcr, hid, hne, hrel, hef] at h
              · simp [Exec, hc, hcr, hid, hne, hrel, hef, monitorEvents,
                  hg] at h
                exact ⟨hA, hB, h.2.1, h.2.2⟩
            | ok fin =>
              simp [Exec, hc, hcr, hid, hne, hrel, monitorEvents, hg] at h
              exact ⟨hA, hB, h.2.1, h.2.2⟩

/-! ### Claim theorems -/

/-- C8: For every input string, `ParseRepositoryTag` splits on the last
colon and treats the suffix after that colon as the tag only if the suffix
contains no slash character; otherwise (and when no colon exists) it
returns the whole string as the repository with an empty tag.  A suffix
after the last colon is exactly a decomposition `a ++ ':' :: b` with no
colon in `b`.  The four example inputs of the claim evaluate as stated. -/
theorem ParseRepositoryTag_last_colon_split :
    (∀ a b : List Char, ':' ∉ b → '/' ∉ b →
      parseRepoTagList (a ++ ':' :: b) = (a, b)) ∧
    (∀ a b : List Char, ':' ∉ b → '/' ∈ b →
      parseRepoTagList (a ++ ':' :: b) = (a ++ ':' :: b, [])) ∧
    (∀ l : List Char, ':' ∉ l → parseRepoTagList l = (l, [])) ∧
    ParseRepositoryTag "localhost.localdomain:5000/samalba/hipache:latest" =
      ("localhost.localdomain:5000/samalba/hipache", "latest") ∧
    ParseRepositoryTag "localhost.localdomain:5000/samalba/hipache" =
      ("localhost.localdomain:5000/samalba/hipache", "") ∧
    ParseRepositoryTag "alpine" = ("alpine", "") ∧
    ParseRepositoryTag "a:b/c" = ("a:b/c", "") :=
  ⟨fun _ _ hb hs => parseRepoTagList_split hb hs,
   fun _ _ hb hs => parseRepoTagList_slash hb hs,
   fun _ h => parseRepoTagList_no_colon h,
   by decide, by decide, by decide, by decide⟩

theorem ParseRepositoryTag_last_colon_split_witness :
    parseRepoTagList (['a'] ++ ':' :: ['b']) = (['a'], ['b']) ∧
    parseRepoTagList (['a'] ++ ':' :: ['b', '/', 'c']) =
      (['a'] ++ ':' :: ['b', '/', 'c'], []) ∧
    parseRepoTagList ['x'] = (['x'], []) :=
  ⟨ParseRepositoryTag_last_colon_split.1 ['a'] ['b'] (by decide) (by decide),
   ParseRepositoryTag_last_colon_split.2.1 ['a'] ['b', '/', 'c']
     (by decide) (by decide),
   ParseRepositoryTag_last_colon_split.2.2.1 ['x'] (by decide)⟩

/-- C9 counterexample: the claim says that whenever the returned tag is
empty the returned repository equals the input; on input "a:" the code
returns repository "a" with an empty tag, and "a" is not "a:". -/
theorem ParseRepositoryTag_roundtrip_counterexample :
    ParseRepositoryTag "a:" = ("a", "") ∧ ("a" : String) ≠ "a:" :=
  ⟨by decide, by decide⟩

/-- C9 (amended): round-trip of `ParseRepositoryTag`: for every input, if
the returned tag is non-empty then repository ++ ":" ++ tag equals the
input; if the returned tag is empty then the repository equals the input,
or (when the input ends in a colon preceding an empty suffix) the
repository followed by ":" equals the input; the returned tag never
contains a slash. -/
theorem ParseRepositoryTag_roundtrip_amended (l : List Char) :
    ((parseRepoTagList l).2 ≠ [] →
      (parseRepoTagList l).1 ++ ':' :: (parseRepoTagList l).2 = l) ∧
    ((parseRepoTagList l).2 = [] →
      (parseRepoTagList l).1 = l ∨ (parseRepoTagList l).1 ++ [':'] = l) ∧
    '/' ∉ (parseRepoTagList l).2 := by
  cases h : lastIndexOf ':' l with
  | none => simp [parseRepoTagList, h]
  | some n =>
    by_cases hs : '/' ∈ l.drop (n + 1)
    · simp [parseRepoTagList, h, hs]
    · simp only [parseRepoTagList, h, if_neg hs]
      refine ⟨fun _ => lastIndexOf_take_drop h, fun ht => Or.inr ?_, hs⟩
      have hsplit := lastIndexOf_take_drop (c := ':') h
      rw [ht] at hsplit
      exact hsplit

theorem ParseRepositoryTag_roundtrip_amended_witness :
    ((parseRepoTagList ['a', ':', 'b']).1 ++
      ':' :: (parseRepoTagList ['a', ':', 'b']).2 = ['a', ':', 'b']) ∧
    ((parseRepoTagList ['a', ':']).1 = ['a', ':'] ∨
      (parseRepoTagList ['a', ':']).1 ++ [':'] = ['a', ':']) :=
  ⟨(ParseRepositoryTag_roundtrip_amended ['a', ':', 'b']).1 (by decide),
   (ParseRepositoryTag_roundtrip_amended ['a', ':']).2.1 (by decide)⟩

/-- C3: For every ExecOptions whose Container field is the empty string,
Exec returns a "no such container" validation error immediately and
performs no network call: the request dispatcher is never invoked (the
recorded call list is empty). -/
theorem Exec_empty_container_no_network (env : ExecEnv) (opts : ExecOptions)
    (h : opts.Container = "") :
    (Exec env opts).1 = some (GoError.noSuchContainer "") ∧
    (Exec env opts).2.1 = [] := by
  simp [Exec, h]

theorem Exec_empty_container_no_network_witness :
    (Exec sampleEnv { sampleOpts with Container := "" }).1 =
      some (GoError.noSuchContainer "") ∧
    (Exec sampleEnv { sampleOpts with Container := "" }).2.1 = [] :=
  Exec_empty_container_no_network sampleEnv
    { sampleOpts with Container := "" } rfl

/-- C4: For every creation response that the dispatcher returns
successfully but whose identifier field is empty or absent (Go's
`json.Unmarshal` leaves `Id` as the empty string in both cases), Exec
returns the distinct "missing operation id" server-contract error, never
nil; a transport failure of the creation call is a different condition and
is propagated unchanged. -/
theorem Exec_missing_operation_id (env : ExecEnv) (opts : ExecOptions)
    (h : opts.Container ≠ "") :
    (∀ body : CreateBody, env.create = .ok body →
      body.unmarshalId = .ok "" →
      (Exec env opts).1 = some GoError.missingOpId ∧
      (Exec env opts).1 ≠ none) ∧
    (∀ e : GoError, env.create = .error e → (Exec env opts).1 = some e) ∧
    (∀ t : Nat, GoError.missingOpId ≠ GoError.transport t) := by
  refine ⟨?_, ?_, ?_⟩
  · intro body hb hid
    constructor
    · simp [Exec, h, hb, hid]
    · simp [Exec, h, hb, hid]
  · intro e he
    simp [Exec, h, he]
  · intro t h2
    exact GoError.noConfusion h2

theorem Exec_missing_operation_id_witness :
    (Exec { sampleEnv with create := .ok ⟨.ok ""⟩ } sampleOpts).1 =
      some GoError.missingOpId :=
  ((Exec_missing_operation_id { sampleEnv with create := .ok ⟨.ok ""⟩ }
    sampleOpts (by decide)).1 ⟨.ok ""⟩ rfl rfl).1

/-- C5: For every exec session, the relay's error sink is selected before
the upgrader is called: whenever a hijack (upgrade) call is recorded, the
error sink it was passed equals the caller's output sink when Tty is
active, and the caller's distinct error sink otherwise; the output and
input sinks are passed unchanged. -/
theorem Exec_relay_error_sink (env : ExecEnv) (opts : ExecOptions)
    (m p : String) (t : Bool) (i o e : GoStream)
    (h : Event.hijackCall m p t i o e ∈ (Exec env opts).2.1) :
    (opts.Tty = true → e = opts.OutputStream) ∧
    (opts.Tty = false → e = opts.ErrorStream) ∧
    t = opts.Tty ∧ i = opts.InputStream ∧ o = opts.OutputStream := by
  by_cases hc : opts.Container = ""
  · simp [Exec, hc] at h
  · cases hcr : env.create with
    | error e0 => simp [Exec, hc, hcr] at h
    | ok body =>
      cases hid : body.unmarshalId with
      | error e0 => simp [Exec, hc, hcr, hid] at h
      | ok id2 =>
        by_cases hne : id2 = ""
        · simp [Exec, hc, hcr, hid, hne] at h
        · rw [Exec_events_eq env opts hc hcr hid hne] at h
          have htail := tailEvents_filter_hijack env opts id2
          rw [List.filter_eq_nil_iff] at htail
          simp at h
          rcases h with h | h
          · obtain ⟨-, -, ht, hi, ho, he⟩ := h
            refine ⟨fun htty => ?_, fun htty => ?_, ht, hi, ho⟩
            · rw [he, if_pos htty]
            · rw [he, htty]
              rfl
          · have hfalse := htail _ h
            simp [isHijackEvent] at hfalse

theorem Exec_relay_error_sink_witness :
    ((sampleOpts.Tty = true →
        GoStream.other 1 = sampleOpts.OutputStream) ∧
      (sampleOpts.Tty = false →
        GoStream.other 1 = sampleOpts.ErrorStream) ∧
      sampleOpts.Tty = sampleOpts.Tty ∧
      GoStream.other 2 = sampleOpts.InputStream ∧
      GoStream.other 0 = sampleOpts.OutputStream) :=
  Exec_relay_error_sink sampleEnv sampleOpts "POST" "/exec/abc/start"
    false (.other 2) (.other 0) (.other 1) (by decide)

/-- C6: For every creation response containing a non-empty identifier, the
start/upgrade call is invoked exactly once, as a POST whose path embeds
exactly that identifier ("/exec/<id>/start"), while the creation call was
a POST to "/containers/<name>/exec" for the container name. -/
theorem Exec_create_and_start_paths (env : ExecEnv) (opts : ExecOptions)
    (hc : opts.Container ≠ "") (body : CreateBody) (id : String)
    (hcr : env.create = .ok body) (hid : body.unmarshalId = .ok id)
    (hne : id ≠ "") :
    (Exec env opts).2.1.filter isHijackEvent =
      [Event.hijackCall "POST" ("/exec/" ++ id ++ "/start") opts.Tty
        opts.InputStream opts.OutputStream
        (if opts.Tty then opts.OutputStream else opts.ErrorStream)] ∧
    Event.doCall "POST" ("/containers/" ++ opts.Container ++ "/exec") ∈
      (Exec env opts).2.1 := by
  rw [Exec_events_eq env opts hc hcr hid hne]
  constructor
  · simp [List.filter_cons, isHijackEvent, tailEvents_filter_hijack]
  · simp

theorem Exec_create_and_start_paths_witness :
    (Exec sampleEnv sampleOpts).2.1.filter isHijackEvent =
      [Event.hijackCall "POST" "/exec/abc/start" sampleOpts.Tty
        sampleOpts.InputStream sampleOpts.OutputStream
        (if sampleOpts.Tty then sampleOpts.OutputStream
         else sampleOpts.ErrorStream)] ∧
    Event.doCall "POST" "/containers/c1/exec" ∈ (Exec sampleEnv sampleOpts).2.1 :=
  Exec_create_and_start_paths sampleEnv sampleOpts (by decide)
    ⟨.ok "abc"⟩ "abc" rfl rfl (by decide)

/-- C7: Terminal-size monitoring is started only when pseudo-terminal mode
is requested and the caller's input stream passes the `*os.File` test; a
failure of the size monitor never becomes the session's returned error
(the result is independent of the monitor outcome), so a session whose
relay succeeds returns nil even if monitoring failed. -/
theorem Exec_monitor_warning_only (env : ExecEnv) (opts : ExecOptions) :
    (∀ id b fd, Event.monitorCall id b fd ∈ (Exec env opts).2.1 →
      opts.Tty = true ∧ isOsFile opts.InputStream = true) ∧
    (∀ m, (Exec { env with monitorErr := m } opts).1 = (Exec env opts).1) ∧
    (∀ body : CreateBody, ∀ id : String, opts.Container ≠ "" →
      env.create = .ok body → body.unmarshalId = .ok id → id ≠ "" →
      env.relay = .ok none → (Exec env opts).1 = none) := by
  refine ⟨?_, ?_, ?_⟩
  · intro id b fd h
    exact ⟨(monitor_event_guard env opts h).1,
      (monitor_event_guard env opts h).2.1⟩
  · intro m
    by_cases hc : opts.Container = ""
    · simp [Exec, hc]
    · cases hcr : env.create with
      | error e0 => simp [Exec, hc, hcr]
      | ok body =>
        cases hid : body.unmarshalId with
        | error e0 => simp [Exec, hc, hcr, hid]
        | ok id2 =>
          by_cases hne : id2 = ""
          · simp [Exec, hc, hcr, hid, hne]
          · cases hrel : env.relay with
            | fail e0 =>
              by_cases hef : env.errFirst <;>
                simp [Exec, hc, hcr, hid, hne, hrel, hef]
            | ok fin => simp [Exec, hc, hcr, hid, hne, hrel]
  · intro body id hcon hcr hid hne hrel
    rw [Exec_result_eq env opts hcon hcr hid hne, hrel]
    rfl

theorem Exec_monitor_warning_only_witness :
    (Exec { sampleEnv with monitorErr := some (.transport 9) }
      { sampleTtyOpts with Container := "c1" }).1 =
      (Exec sampleEnv { sampleTtyOpts with Container := "c1" }).1 ∧
    (Exec sampleEnv sampleOpts).1 = none :=
  ⟨(Exec_monitor_warning_only sampleEnv
      { sampleTtyOpts with Container := "c1" }).2.1 (some (.transport 9)),
   (Exec_monitor_warning_only sampleEnv sampleOpts).2.2 ⟨.ok "abc"⟩ "abc"
     (by decide) rfl rfl (by decide) rfl⟩

/-- C10 counterexample: the claim's "for every session the TTY-size
monitor is started iff Tty is set and InputStream is an `*os.File`" fails:
in a session whose relay fails and where the select of line 106 takes the
error branch, Exec returns before line 122, so no monitor is started even
though Tty is set and the input stream is an `*os.File`. -/
theorem Exec_terminal_check_counterexample :
    (sampleTtyOpts.Tty && isOsFile sampleTtyOpts.InputStream) = true ∧
    (Exec failEnv sampleTtyOpts).2.1.any isMonitorEvent = false := by
  constructor
  · decide
  · decide

/-- C10 (amended): for every session that proceeds past the
connection-ready select (the relay succeeded, or it failed and the select
took the closed-channel branch), the TTY-size monitor is started iff Tty
is set and InputStream has dynamic type `*os.File` -- any `*os.File`,
terminal device or not -- and the monitor's `isTerminalOut`/`outFd`
arguments come from the same `*os.File` test on OutputStream. -/
theorem Exec_terminal_check_amended (env : ExecEnv) (opts : ExecOptions)
    (hc : opts.Container ≠ "") (body : CreateBody) (id : String)
    (hcr : env.create = .ok body) (hid : body.unmarshalId = .ok id)
    (hne : id ≠ "")
    (hlate : env.errFirst = false ∨ ∀ e, env.relay ≠ .fail e) :
    ((Exec env opts).2.1.any isMonitorEvent =
      (opts.Tty && isOsFile opts.InputStream)) ∧
    ((opts.Tty && isOsFile opts.InputStream) = true →
      Event.monitorCall id (isOsFile opts.OutputStream)
        (outFdOf opts.OutputStream) ∈ (Exec env opts).2.1) := by
  rw [Exec_events_eq env opts hc hcr hid hne]
  have htail : tailEvents env opts id = monitorEvents opts id := by
    cases hrel : env.relay with
    | fail e =>
      rcases hlate with hef | hnf
      · simp [tailEvents, hrel, hef]
      · exact absurd hrel (hnf e)
    | ok fin => simp [tailEvents, hrel]
  rw [htail]
  constructor
  · cases hg : opts.Tty && isOsFile opts.InputStream <;>
      simp [monitorEvents, hg, isMonitorEvent]
  · intro hg
    simp [monitorEvents, hg]

theorem Exec_terminal_check_amended_witness :
    ((Exec sampleEnv { sampleTtyOpts with Container := "c1" }).2.1.any
        isMonitorEvent =
      ({ sampleTtyOpts with Container := "c1" } : ExecOptions).Tty &&
        isOsFile ({ sampleTtyOpts with Container := "c1" } :
          ExecOptions).InputStream) ∧
    Event.monitorCall "abc" (isOsFile sampleTtyOpts.OutputStream)
        (outFdOf sampleTtyOpts.OutputStream) ∈
      (Exec sampleEnv { sampleTtyOpts with Container := "c1" }).2.1 :=
  ⟨(Exec_terminal_check_amended sampleEnv
      { sampleTtyOpts with Container := "c1" } (by decide) ⟨.ok "abc"⟩
      "abc" rfl rfl (by decide) (Or.inl rfl)).1,
   (Exec_terminal_check_amended sampleEnv
      { sampleTtyOpts with Container := "c1" } (by decide) ⟨.ok "abc"⟩
      "abc" rfl rfl (by decide) (Or.inl rfl)).2 (by decide)⟩

/-- C1: For every session in which the exec instance is created
successfully (the initial configuration of the step model), on every
interleaving -- including the relay failing so that completion arrives
before (or instead of) the connection-ready signal, and the success path
where the ready signal was already consumed -- the coordinator observes
the relay's completion channel exactly once, never gets stuck before
returning (a step is always enabled, and the measure strictly decreases,
so every maximal interleaving terminates), and the value it returns is
the relay's final value (nil on success). -/
theorem Exec_completion_observed_once (o : RelayOutcome) (c : Config)
    (h : Reach o c) :
    (∀ v, c.coord = CoordPC.done v → v = relayFinal o ∧ c.errReads = 1) ∧
    ((∀ v, c.coord ≠ CoordPC.done v) → ∃ ch c', step o c ch = some c') ∧
    (∀ ch c', step o c ch = some c' →
      configMeasure c' < configMeasure c) := by
  have hinv := reach_inv h
  refine ⟨?_, fun hne => inv_progress hinv hne,
    fun ch c' hs => step_decreases hinv hs⟩
  cases o with
  | fail e =>
    rcases hinv with rfl | rfl | rfl | rfl | rfl | rfl | rfl <;>
      simp_all [initConfig, F2, F3, F4, F5, F6, F7, relayFinal]
  | ok fin =>
    rcases hinv with rfl | rfl | rfl | rfl | rfl | rfl | rfl <;>
      simp_all [initConfig, O2, O3, O4, O5, O6, O7, relayFinal]

theorem Exec_completion_observed_once_witness :
    (∀ v, (O7 none).coord = CoordPC.done v →
      v = relayFinal (RelayOutcome.ok none) ∧ (O7 none).errReads = 1) ∧
    ((∀ v, (O7 none).coord ≠ CoordPC.done v) →
      ∃ ch c', step (RelayOutcome.ok none) (O7 none) ch = some c') ∧
    (∀ ch c', step (RelayOutcome.ok none) (O7 none) ch = some c' →
      configMeasure c' < configMeasure (O7 none)) :=
  Exec_completion_observed_once (RelayOutcome.ok none) (O7 none)
    (Reach.step .finishStep (Reach.step .drainErr (Reach.step .relayWrite
      (Reach.step .relayCopy (Reach.step .selReady
        (Reach.step .relayStart Reach.init rfl) rfl) rfl) rfl) rfl) rfl)

/-- C2: On every interleaving, the hijacked connection is closed at most
once; when the coordinator has returned, the connection was closed exactly
once if ownership was acquired (a non-nil closer arrived on the
connection-ready channel) and never otherwise; and when the upgrade fails
before a connection is acquired, no ownership is ever taken and no close
is ever attempted. -/
theorem Exec_connection_closed_exactly_once (o : RelayOutcome) (c : Config)
    (h : Reach o c) :
    c.closes ≤ 1 ∧
    (∀ v, c.coord = CoordPC.done v →
      (c.acquired = true → c.closes = 1) ∧
      (c.acquired = false → c.closes = 0)) ∧
    (∀ e, o = RelayOutcome.fail e →
      c.closes = 0 ∧ c.acquired = false) := by
  have hinv := reach_inv h
  cases o with
  | fail e =>
    rcases hinv with rfl | rfl | rfl | rfl | rfl | rfl | rfl <;>
      simp_all [initConfig, F2, F3, F4, F5, F6, F7]
  | ok fin =>
    rcases hinv with rfl | rfl | rfl | rfl | rfl | rfl | rfl <;>
      simp_all [initConfig, O2, O3, O4, O5, O6, O7]

theorem Exec_connection_closed_exactly_once_witness :
    (F7 (GoError.transport 0)).closes ≤ 1 ∧
    (∀ v, (F7 (GoError.transport 0)).coord = CoordPC.done v →
      ((F7 (GoError.transport 0)).acquired = true →
        (F7 (GoError.transport 0)).closes = 1) ∧
      ((F7 (GoError.transport 0)).acquired = false →
        (F7 (GoError.transport 0)).closes = 0)) ∧
    (∀ e, RelayOutcome.fail (GoError.transport 0) = RelayOutcome.fail e →
      (F7 (GoError.transport 0)).closes = 0 ∧
      (F7 (GoError.transport 0)).acquired = false) :=
  Exec_connection_closed_exactly_once
    (RelayOutcome.fail (GoError.transport 0)) (F7 (GoError.transport 0))
    (Reach.step .finishStep (Reach.step .selErr (Reach.step .relayWrite
      (Reach.step .relayStart Reach.init rfl) rfl) rfl) rfl)

end Docker
